import Mathlib

/-!
Shallow embedding of the inventory HTTP service (Express application in the
repository's main source file).  The in-memory list `inventory`, the startup
id counter `nextId`, the photo files in the cache directory and the persisted
`inventory.json` file are modelled as one explicit `ServerState`; each route
handler becomes a pure function from state and request data to a response and
a new state.
-/

namespace Inventory

/-- An inventory record, as stored in the in-memory `inventory` array and in
`inventory.json`: `{ id, inventory_name, description, photoFilename }`. -/
structure Item where
  id : Int
  inventory_name : String
  description : String
  photoFilename : Option String
  deriving DecidableEq

/-- JavaScript truthiness of a nullable string (`null`/`undefined` and the
empty string are falsy). -/
def strTruthy : Option String → Bool
  | none => false
  | some s => !(s == "")

/-- JavaScript `String.prototype.trim`: drop whitespace from both ends. -/
def trimJS (s : String) : String :=
  ⟨((s.toList.dropWhile Char.isWhitespace).reverse.dropWhile Char.isWhitespace).reverse⟩

/-- Accumulate the decimal value of a digit list, as `parseInt` does. -/
def digitsToNat : List Char → Nat → Nat
  | [], acc => acc
  | c :: cs, acc => digitsToNat cs (10 * acc + (c.toNat - '0'.toNat))

/-- Parse the longest leading run of decimal digits; `none` when there is
no leading digit (`parseInt` yields `NaN`). -/
def parseDigits (cs : List Char) : Option Int :=
  let ds := cs.takeWhile Char.isDigit
  if ds.isEmpty then none
  else some (Int.ofNat (digitsToNat ds 0))

/-- JavaScript `parseInt(s, 10)`: skip leading whitespace, optional sign,
then the longest digit prefix; `NaN` (here `none`) when no digit follows.
Trailing garbage is ignored, so `parseInt("1xyz", 10) = 1`. -/
def parseIntJS (s : String) : Option Int :=
  let cs := s.toList.dropWhile Char.isWhitespace
  match cs with
  | '-' :: rest => (parseDigits rest).map (fun n => -n)
  | '+' :: rest => parseDigits rest
  | _ => parseDigits cs

/-- The `inventory.json` file in the cache directory: absent, present but
unparseable, or a parsed array of items. -/
inductive DiskFile where
  | absent
  | invalid
  | parsed (items : List Item)
  deriving DecidableEq

/-- `loadInventory()`: `[]` when the file is absent; `[]` (after logging)
when `JSON.parse` throws; the parsed array otherwise. -/
def loadInventory : DiskFile → List Item
  | .absent => []
  | .invalid => []
  | .parsed items => items

/-- The whole mutable state of the running process: the in-memory item list,
the id counter, the photo files present in the cache directory, and the
current content of `inventory.json`. -/
structure ServerState where
  inventory : List Item
  nextId : Int
  photoFiles : List String
  invFile : DiskFile
  deriving DecidableEq

/-- `inventory.reduce((max, item) => Math.max(max, item.id), 0)`. -/
def maxId (inv : List Item) : Int :=
  inv.foldl (fun m x => max m x.id) 0

/-- The startup computation of `nextId`:
`inventory.length > 0 ? reduce(...) + 1 : 1`. -/
def computeNextId (inv : List Item) : Int :=
  if inv.length > 0 then maxId inv + 1 else 1

/-- Process startup: load the inventory file and derive the id counter. -/
def initState (f : DiskFile) (photos : List String) : ServerState :=
  ⟨loadInventory f, computeNextId (loadInventory f), photos, f⟩

/-- `findItem(id)`: first item whose `id` matches. -/
def findItem (st : ServerState) (i : Int) : Option Item :=
  st.inventory.find? (fun x => x.id == i)

/-- `findItem(parseInt(idStr, 10))`; a failed parse gives `NaN`, which
matches no item. -/
def findItemByStr (st : ServerState) (s : String) : Option Item :=
  match parseIntJS s with
  | none => none
  | some i => findItem st i

/-- The external JSON shape produced by `itemToDTO`. -/
structure ItemDTO where
  id : Int
  inventory_name : String
  description : String
  photo_url : Option String
  deriving DecidableEq

/-- The absolute URL of the photo route for item `i`. -/
def photoUrl (baseUrl : String) (i : Int) : String :=
  baseUrl ++ "/inventory/" ++ toString i ++ "/photo"

/-- `itemToDTO(req, item)`: `photo_url` is derived from the request's own
base URL when a (truthy) photo reference exists, else `null`. -/
def itemToDTO (baseUrl : String) (it : Item) : ItemDTO :=
  { id := it.id
    inventory_name := it.inventory_name
    description := it.description
    photo_url :=
      if strTruthy it.photoFilename then some (photoUrl baseUrl it.id) else none }

/-- The JSON body of a `/search` success response. -/
structure SearchResult where
  id : Int
  inventory_name : String
  description : String
  has_photo : Bool
  photo_url : Option String
  deriving DecidableEq

/-- Response bodies the service can produce. -/
inductive RespBody where
  | jsonError (msg : String)
  | jsonMessage (msg : String)
  | jsonItem (dto : ItemDTO)
  | jsonList (dtos : List ItemDTO)
  | jsonSearch (r : SearchResult)
  | fileContent (contentType : String) (filename : String)
  | page (name : String)
  deriving DecidableEq

/-- An HTTP response: status code and body. -/
structure Response where
  status : Nat
  body : RespBody
  deriving DecidableEq

/-- Multer's disk storage: an uploaded file is written into the cache
directory before the handler body runs. -/
def addUpload : Option String → List String → List String
  | none, fs => fs
  | some f, fs => f :: fs

/-- The best-effort `existsSync`/`unlinkSync` pair run on a truthy
`photoFilename` after a delete: removing the first occurrence of an
existing name, and a no-op for an absent one, is `List.erase`. -/
def unlinkPhoto : Option String → List String → List String
  | none, fs => fs
  | some f, fs => if f = "" then fs else fs.erase f

/-- `POST /register`: multer stores the uploaded photo (if any) first; a
missing/empty/whitespace-only `inventory_name` is rejected with 400 (the JS
guard `!inventory_name || inventory_name.trim() === ''` collapses to the
single trim test once the field is present); otherwise the new item gets
`nextId++`, is appended and persisted. -/
def postRegister (st : ServerState) (b : String) (name desc file : Option String) :
    Response × ServerState :=
  match name with
  | none =>
    (⟨400, .jsonError "inventory_name is required"⟩,
     { st with photoFiles := addUpload file st.photoFiles })
  | some s =>
    if trimJS s = "" then
      (⟨400, .jsonError "inventory_name is required"⟩,
       { st with photoFiles := addUpload file st.photoFiles })
    else
      (⟨201, .jsonItem (itemToDTO b ⟨st.nextId, trimJS s, desc.getD "", file⟩)⟩,
       ⟨st.inventory ++ [⟨st.nextId, trimJS s, desc.getD "", file⟩],
        st.nextId + 1,
        addUpload file st.photoFiles,
        .parsed (st.inventory ++ [⟨st.nextId, trimJS s, desc.getD "", file⟩])⟩)

/-- `GET /inventory`. -/
def getInventoryList (st : ServerState) (b : String) : Response :=
  ⟨200, .jsonList (st.inventory.map (itemToDTO b))⟩

/-- `GET /inventory/:id`. -/
def getItem (st : ServerState) (b : String) (idStr : String) : Response :=
  match findItemByStr st idStr with
  | none => ⟨404, .jsonError "Item not found"⟩
  | some it => ⟨200, .jsonItem (itemToDTO b it)⟩

/-- Replace the first item with id `i` by its image under `f` (the JS code
mutates the object returned by `find`). -/
def updateFirst (inv : List Item) (i : Int) (f : Item → Item) : List Item :=
  match inv with
  | [] => []
  | x :: rest => if x.id == i then f x :: rest else x :: updateFirst rest i f

/-- Remove the first item with id `i` (`splice` at `findIndex`). -/
def removeFirst (inv : List Item) (i : Int) : List Item :=
  match inv with
  | [] => []
  | x :: rest => if x.id == i then rest else x :: removeFirst rest i

/-- The field updates of `PUT /inventory/:id`: a field is assigned exactly
when it is present (`!== undefined`) in the JSON body. -/
def applyUpdate (name desc : Option String) (it : Item) : Item :=
  match name, desc with
  | none, none => it
  | some s, none => { it with inventory_name := s }
  | none, some d => { it with description := d }
  | some s, some d => { it with inventory_name := s, description := d }

/-- `PUT /inventory/:id`. -/
def putItem (st : ServerState) (b : String) (idStr : String)
    (name desc : Option String) : Response × ServerState :=
  match parseIntJS idStr with
  | none => (⟨404, .jsonError "Item not found"⟩, st)
  | some i =>
    match findItem st i with
    | none => (⟨404, .jsonError "Item not found"⟩, st)
    | some it =>
      (⟨200, .jsonItem (itemToDTO b (applyUpdate name desc it))⟩,
       { st with
          inventory := updateFirst st.inventory i (applyUpdate name desc),
          invFile := .parsed (updateFirst st.inventory i (applyUpdate name desc)) })

/-- `DELETE /inventory/:id`: splice the item out, persist, then best-effort
unlink its photo file. -/
def deleteItem (st : ServerState) (idStr : String) : Response × ServerState :=
  match parseIntJS idStr with
  | none => (⟨404, .jsonError "Item not found"⟩, st)
  | some i =>
    match findItem st i with
    | none => (⟨404, .jsonError "Item not found"⟩, st)
    | some removed =>
      (⟨200, .jsonMessage "Item deleted"⟩,
       { st with
          inventory := removeFirst st.inventory i,
          invFile := .parsed (removeFirst st.inventory i),
          photoFiles := unlinkPhoto removed.photoFilename st.photoFiles })

/-- `GET /inventory/:id/photo`: 404 when the item is missing or its photo
reference is falsy; 404 when the referenced file is not on disk; else the
file is served as `image/jpeg`. -/
def getPhoto (st : ServerState) (idStr : String) : Response :=
  match findItemByStr st idStr with
  | none => ⟨404, .jsonError "Photo not found"⟩
  | some it =>
    match it.photoFilename with
    | none => ⟨404, .jsonError "Photo not found"⟩
    | some f =>
      if f = "" then ⟨404, .jsonError "Photo not found"⟩
      else if f ∈ st.photoFiles then ⟨200, .fileContent "image/jpeg" f⟩
      else ⟨404, .jsonError "Photo file not found"⟩

/-- `PUT /inventory/:id/photo`: multer stores the upload first (also when
the item turns out not to exist); unknown item is 404, missing file is 400,
otherwise the photo reference is overwritten unconditionally and the
previous file is left on disk. -/
def putPhoto (st : ServerState) (b : String) (idStr : String) (file : Option String) :
    Response × ServerState :=
  match parseIntJS idStr with
  | none =>
    (⟨404, .jsonError "Item not found"⟩,
     { st with photoFiles := addUpload file st.photoFiles })
  | some i =>
    match findItem st i with
    | none =>
      (⟨404, .jsonError "Item not found"⟩,
       { st with photoFiles := addUpload file st.photoFiles })
    | some it =>
      match file with
      | none => (⟨400, .jsonError "photo is required"⟩, st)
      | some fn =>
        (⟨200, .jsonItem (itemToDTO b { it with photoFilename := some fn })⟩,
         { st with
            inventory := updateFirst st.inventory i
              (fun x => { x with photoFilename := some fn }),
            photoFiles := fn :: st.photoFiles,
            invFile := .parsed (updateFirst st.inventory i
              (fun x => { x with photoFilename := some fn })) })

/-- The parsed `id` field of a `/search` body: an absent field is
`parseInt(undefined, 10) = NaN`. -/
def searchId (idField : Option String) : Option Int :=
  match idField with
  | none => none
  | some s => parseIntJS s

/-- `POST /search` (read-only). -/
def postSearch (st : ServerState) (b : String) (idField hasPhotoField : Option String) :
    Response :=
  match searchId idField with
  | none => ⟨400, .jsonError "Invalid id"⟩
  | some i =>
    match findItem st i with
    | none => ⟨404, .jsonError "Item not found"⟩
    | some it =>
      ⟨200, .jsonSearch
        { id := it.id
          inventory_name := it.inventory_name
          description := it.description
          has_photo := strTruthy it.photoFilename
          photo_url :=
            if (hasPhotoField == some "on") && strTruthy it.photoFilename
            then some (photoUrl b it.id) else none }⟩

/-- Request paths the Express app can receive, after URL routing. -/
inductive ReqPath where
  | register
  | inventory
  | inventoryId (idStr : String)
  | inventoryIdPhoto (idStr : String)
  | search
  | registerForm
  | searchForm
  | unknown (raw : String)
  deriving DecidableEq

/-- An incoming request: method, routed path, the request's own base URL,
and the body/file fields the handlers read (absent fields are `none`). -/
structure Request where
  method : String
  path : ReqPath
  baseUrl : String
  inventory_name : Option String
  description : Option String
  idField : Option String
  has_photo : Option String
  uploadedFile : Option String
  deriving DecidableEq

/-- The route table in registration order: each path dispatches its listed
methods to the handler; an `app.get` route additionally receives HEAD
requests (Express falls back from HEAD to the GET handler when no HEAD
route exists); any other method falls to the `app.all` 405 catcher.  The
two static form pages have no 405 catcher, so their other methods fall
through to the global 404 middleware, as do unknown paths. -/
def handle (st : ServerState) (req : Request) : Response × ServerState :=
  match req.path with
  | .registerForm =>
    if req.method = "GET" ∨ req.method = "HEAD" then (⟨200, .page "RegisterForm.html"⟩, st)
    else (⟨404, .jsonError "Not Found"⟩, st)
  | .searchForm =>
    if req.method = "GET" ∨ req.method = "HEAD" then (⟨200, .page "SearchForm.html"⟩, st)
    else (⟨404, .jsonError "Not Found"⟩, st)
  | .register =>
    if req.method = "POST" then
      postRegister st req.baseUrl req.inventory_name req.description req.uploadedFile
    else (⟨405, .jsonError "Method Not Allowed"⟩, st)
  | .inventory =>
    if req.method = "GET" ∨ req.method = "HEAD" then (getInventoryList st req.baseUrl, st)
    else (⟨405, .jsonError "Method Not Allowed"⟩, st)
  | .inventoryId s =>
    if req.method = "GET" ∨ req.method = "HEAD" then (getItem st req.baseUrl s, st)
    else if req.method = "PUT" then
      putItem st req.baseUrl s req.inventory_name req.description
    else if req.method = "DELETE" then deleteItem st s
    else (⟨405, .jsonError "Method Not Allowed"⟩, st)
  | .inventoryIdPhoto s =>
    if req.method = "GET" ∨ req.method = "HEAD" then (getPhoto st s, st)
    else if req.method = "PUT" then putPhoto st req.baseUrl s req.uploadedFile
    else (⟨405, .jsonError "Method Not Allowed"⟩, st)
  | .search =>
    if req.method = "POST" then
      (postSearch st req.baseUrl req.idField req.has_photo, st)
    else (⟨405, .jsonError "Method Not Allowed"⟩, st)
  | .unknown _ => (⟨404, .jsonError "Not Found"⟩, st)

/-- The state after serving one request. -/
def applyReq (st : ServerState) (req : Request) : ServerState :=
  (handle st req).2

/-- The state after serving a sequence of requests. -/
def runReqs (st : ServerState) (reqs : List Request) : ServerState :=
  reqs.foldl applyReq st

/-- The ids currently in the store. -/
def itemIds (st : ServerState) : List Int :=
  st.inventory.map Item.id

/-! ### Branch equations for the handlers -/

theorem postRegister_eq_missing (st : ServerState) (b : String) (d f : Option String) :
    postRegister st b none d f
      = (⟨400, .jsonError "inventory_name is required"⟩,
         { st with photoFiles := addUpload f st.photoFiles }) := rfl

theorem postRegister_eq_blank (st : ServerState) (b s : String) (d f : Option String)
    (hs : trimJS s = "") :
    postRegister st b (some s) d f
      = (⟨400, .jsonError "inventory_name is required"⟩,
         { st with photoFiles := addUpload f st.photoFiles }) := by
  simp only [postRegister]
  rw [if_pos hs]

theorem postRegister_eq_ok (st : ServerState) (b s : String) (d f : Option String)
    (hs : ¬ trimJS s = "") :
    postRegister st b (some s) d f
      = (⟨201, .jsonItem (itemToDTO b ⟨st.nextId, trimJS s, d.getD "", f⟩)⟩,
         ⟨st.inventory ++ [⟨st.nextId, trimJS s, d.getD "", f⟩],
          st.nextId + 1,
          addUpload f st.photoFiles,
          .parsed (st.inventory ++ [⟨st.nextId, trimJS s, d.getD "", f⟩])⟩) := by
  simp only [postRegister]
  rw [if_neg hs]

theorem putItem_eq_noparse (st : ServerState) (b idStr : String) (n d : Option String)
    (hp : parseIntJS idStr = none) :
    putItem st b idStr n d = (⟨404, .jsonError "Item not found"⟩, st) := by
  simp only [putItem, hp]

theorem putItem_eq_nofind (st : ServerState) (b idStr : String) (n d : Option String)
    (i : Int) (hp : parseIntJS idStr = some i) (hf : findItem st i = none) :
    putItem st b idStr n d = (⟨404, .jsonError "Item not found"⟩, st) := by
  simp only [putItem, hp, hf]

theorem putItem_eq_found (st : ServerState) (b idStr : String) (n d : Option String)
    (i : Int) (it : Item) (hp : parseIntJS idStr = some i) (hf : findItem st i = some it) :
    putItem st b idStr n d
      = (⟨200, .jsonItem (itemToDTO b (applyUpdate n d it))⟩,
         { st with
            inventory := updateFirst st.inventory i (applyUpdate n d),
            invFile := .parsed (updateFirst st.inventory i (applyUpdate n d)) }) := by
  simp only [putItem, hp, hf]

theorem deleteItem_eq_noparse (st : ServerState) (idStr : String)
    (hp : parseIntJS idStr = none) :
    deleteItem st idStr = (⟨404, .jsonError "Item not found"⟩, st) := by
  simp only [deleteItem, hp]

theorem deleteItem_eq_nofind (st : ServerState) (idStr : String)
    (i : Int) (hp : parseIntJS idStr = some i) (hf : findItem st i = none) :
    deleteItem st idStr = (⟨404, .jsonError "Item not found"⟩, st) := by
  simp only [deleteItem, hp, hf]

theorem deleteItem_eq_found (st : ServerState) (idStr : String)
    (i : Int) (removed : Item)
    (hp : parseIntJS idStr = some i) (hf : findItem st i = some removed) :
    deleteItem st idStr
      = (⟨200, .jsonMessage "Item deleted"⟩,
         { st with
            inventory := removeFirst st.inventory i,
            invFile := .parsed (removeFirst st.inventory i),
            photoFiles := unlinkPhoto removed.photoFilename st.photoFiles }) := by
  simp only [deleteItem, hp, hf]

theorem putPhoto_eq_noparse (st : ServerState) (b idStr : String) (f : Option String)
    (hp : parseIntJS idStr = none) :
    putPhoto st b idStr f
      = (⟨404, .jsonError "Item not found"⟩,
         { st with photoFiles := addUpload f st.photoFiles }) := by
  simp only [putPhoto, hp]

theorem putPhoto_eq_nofind (st : ServerState) (b idStr : String) (f : Option String)
    (i : Int) (hp : parseIntJS idStr = some i) (hf : findItem st i = none) :
    putPhoto st b idStr f
      = (⟨404, .jsonError "Item not found"⟩,
         { st with photoFiles := addUpload f st.photoFiles }) := by
  simp only [putPhoto, hp, hf]

theorem putPhoto_eq_nofile (st : ServerState) (b idStr : String)
    (i : Int) (it : Item) (hp : parseIntJS idStr = some i) (hf : findItem st i = some it) :
    putPhoto st b idStr none = (⟨400, .jsonError "photo is required"⟩, st) := by
  simp only [putPhoto, hp, hf]

theorem putPhoto_eq_found (st : ServerState) (b idStr fn : String)
    (i : Int) (it : Item) (hp : parseIntJS idStr = some i) (hf : findItem st i = some it) :
    putPhoto st b idStr (some fn)
      = (⟨200, .jsonItem (itemToDTO b { it with photoFilename := some fn })⟩,
         { st with
            inventory := updateFirst st.inventory i
              (fun x => { x with photoFilename := some fn }),
            photoFiles := fn :: st.photoFiles,
            invFile := .parsed (updateFirst st.inventory i
              (fun x => { x with photoFilename := some fn })) }) := by
  simp only [putPhoto, hp, hf]

/-! ### List helper lemmas -/

theorem find_first_split (pre post : List Item) (it : Item) (i : Int)
    (hpre : ∀ x ∈ pre, x.id ≠ i) (hit : it.id = i) :
    (pre ++ it :: post).find? (fun x => x.id == i) = some it := by
  refine List.find?_eq_some.mpr ⟨by simp [hit], pre, post, rfl, ?_⟩
  intro a ha
  simp [hpre a ha]

theorem find?_eq_some_split (l : List Item) (i : Int) (a : Item)
    (h : l.find? (fun x => x.id == i) = some a) :
    a.id = i ∧ ∃ pre post, l = pre ++ a :: post ∧ ∀ x ∈ pre, x.id ≠ i := by
  obtain ⟨ha, pre, post, hsplit, hpre⟩ := List.find?_eq_some.mp h
  refine ⟨by simpa using ha, pre, post, hsplit, ?_⟩
  intro x hx
  simpa using hpre x hx

theorem updateFirst_split (pre post : List Item) (it : Item) (i : Int) (f : Item → Item)
    (hpre : ∀ x ∈ pre, x.id ≠ i) (hit : it.id = i) :
    updateFirst (pre ++ it :: post) i f = pre ++ f it :: post := by
  induction pre with
  | nil => simp [updateFirst, hit]
  | cons a as ih =>
    have ha : ¬ (a.id == i) = true := by simp [hpre a (by simp)]
    simp only [List.cons_append, updateFirst, ha, if_false]
    exact congrArg (a :: ·) (ih (fun x hx => hpre x (by simp [hx])))

theorem removeFirst_split (pre post : List Item) (it : Item) (i : Int)
    (hpre : ∀ x ∈ pre, x.id ≠ i) (hit : it.id = i) :
    removeFirst (pre ++ it :: post) i = pre ++ post := by
  induction pre with
  | nil => simp [removeFirst, hit]
  | cons a as ih =>
    have ha : ¬ (a.id == i) = true := by simp [hpre a (by simp)]
    simp only [List.cons_append, removeFirst, ha, if_false]
    exact congrArg (a :: ·) (ih (fun x hx => hpre x (by simp [hx])))

theorem mem_updateFirst {inv : List Item} {i : Int} {f : Item → Item} {y : Item}
    (hy : y ∈ updateFirst inv i f) : y ∈ inv ∨ ∃ x ∈ inv, y = f x := by
  induction inv with
  | nil => simp [updateFirst] at hy
  | cons a as ih =>
    by_cases h : (a.id == i) = true
    · simp only [updateFirst, h, if_true] at hy
      rcases List.mem_cons.mp hy with rfl | hy
      · exact Or.inr ⟨a, by simp, rfl⟩
      · exact Or.inl (List.mem_cons_of_mem _ hy)
    · simp only [updateFirst, h, if_false] at hy
      rcases List.mem_cons.mp hy with rfl | hy
      · exact Or.inl (List.mem_cons_self _ _)
      · rcases ih hy with h' | ⟨x, hx, rfl⟩
        · exact Or.inl (List.mem_cons_of_mem _ h')
        · exact Or.inr ⟨x, List.mem_cons_of_mem _ hx, rfl⟩

theorem mem_removeFirst {inv : List Item} {i : Int} {y : Item}
    (hy : y ∈ removeFirst inv i) : y ∈ inv := by
  induction inv with
  | nil => simp [removeFirst] at hy
  | cons a as ih =>
    by_cases h : (a.id == i) = true
    · simp only [removeFirst, h, if_true] at hy
      exact List.mem_cons_of_mem _ hy
    · simp only [removeFirst, h, if_false] at hy
      rcases List.mem_cons.mp hy with rfl | hy
      · exact List.mem_cons_self _ _
      · exact List.mem_cons_of_mem _ (ih hy)

theorem le_foldl_maxId (l : List Item) (a : Int) :
    a ≤ l.foldl (fun m x => max m x.id) a := by
  induction l generalizing a with
  | nil => simp
  | cons x xs ih =>
    simp only [List.foldl_cons]
    exact le_trans (le_max_left a x.id) (ih (max a x.id))

theorem mem_le_foldl_maxId (l : List Item) (a : Int) (y : Item) :
    y ∈ l → y.id ≤ l.foldl (fun m x => max m x.id) a := by
  induction l generalizing a with
  | nil => intro hy; cases hy
  | cons x xs ih =>
    intro hy
    simp only [List.foldl_cons]
    rcases List.mem_cons.mp hy with rfl | h
    · exact le_trans (le_max_right a y.id) (le_foldl_maxId xs _)
    · exact ih _ h

theorem mem_id_lt_computeNextId (inv : List Item) (y : Item) (hy : y ∈ inv) :
    y.id < computeNextId inv := by
  have hlen : 0 < inv.length := List.length_pos.mpr (by rintro rfl; cases hy)
  have hle : y.id ≤ maxId inv := mem_le_foldl_maxId inv 0 y hy
  unfold computeNextId
  rw [if_pos hlen]
  omega

/-! ### The id-counter invariant -/

/-- Every id in the store is strictly below the id counter. -/
def idBound (st : ServerState) : Prop :=
  ∀ it ∈ st.inventory, it.id < st.nextId

theorem idBound_initState (f : DiskFile) (photos : List String) :
    idBound (initState f photos) := by
  intro it h
  exact mem_id_lt_computeNextId _ it h

theorem applyUpdate_id (name desc : Option String) (it : Item) :
    (applyUpdate name desc it).id = it.id := by
  unfold applyUpdate
  cases name <;> cases desc <;> rfl

theorem postRegister_nextId_le (st : ServerState) (b : String) (n d f : Option String) :
    st.nextId ≤ ((postRegister st b n d f).2).nextId := by
  cases n with
  | none => rw [postRegister_eq_missing]
  | some s =>
    by_cases h : trimJS s = ""
    · rw [postRegister_eq_blank st b s d f h]
    · rw [postRegister_eq_ok st b s d f h]
      exact le_of_lt (lt_add_one st.nextId)

theorem postRegister_idBound (st : ServerState) (b : String) (n d f : Option String)
    (h : idBound st) : idBound ((postRegister st b n d f).2) := by
  cases n with
  | none => rw [postRegister_eq_missing]; exact h
  | some s =>
    by_cases hs : trimJS s = ""
    · rw [postRegister_eq_blank st b s d f hs]; exact h
    · rw [postRegister_eq_ok st b s d f hs]
      intro it hit
      rcases List.mem_append.mp hit with hit | hit
      · have := h it hit
        simp only []
        omega
      · rw [List.mem_singleton.mp hit]
        simp

theorem putItem_state (st : ServerState) (b idStr : String) (n d : Option String) :
    ((putItem st b idStr n d).2).nextId = st.nextId ∧
    ((putItem st b idStr n d).2).photoFiles = st.photoFiles ∧
    (idBound st → idBound ((putItem st b idStr n d).2)) := by
  rcases hp : parseIntJS idStr with _ | i
  · rw [putItem_eq_noparse st b idStr n d hp]
    exact ⟨rfl, rfl, id⟩
  rcases hf : findItem st i with _ | it
  · rw [putItem_eq_nofind st b idStr n d i hp hf]
    exact ⟨rfl, rfl, id⟩
  · rw [putItem_eq_found st b idStr n d i it hp hf]
    refine ⟨rfl, rfl, fun h y hy => ?_⟩
    rcases mem_updateFirst hy with hy | ⟨x, hx, rfl⟩
    · exact h y hy
    · rw [applyUpdate_id]
      exact h x hx

theorem putPhoto_state (st : ServerState) (b idStr : String) (f : Option String) :
    ((putPhoto st b idStr f).2).nextId = st.nextId ∧
    (idBound st → idBound ((putPhoto st b idStr f).2)) := by
  rcases hp : parseIntJS idStr with _ | i
  · rw [putPhoto_eq_noparse st b idStr f hp]
    exact ⟨rfl, id⟩
  rcases hf : findItem st i with _ | it
  · rw [putPhoto_eq_nofind st b idStr f i hp hf]
    exact ⟨rfl, id⟩
  rcases f with _ | fn
  · rw [putPhoto_eq_nofile st b idStr i it hp hf]
    exact ⟨rfl, id⟩
  · rw [putPhoto_eq_found st b idStr fn i it hp hf]
    refine ⟨rfl, fun h y hy => ?_⟩
    rcases mem_updateFirst hy with hy | ⟨x, hx, rfl⟩
    · exact h y hy
    · exact h x hx

theorem deleteItem_state (st : ServerState) (idStr : String) :
    ((deleteItem st idStr).2).nextId = st.nextId ∧
    (idBound st → idBound ((deleteItem st idStr).2)) := by
  rcases hp : parseIntJS idStr with _ | i
  · rw [deleteItem_eq_noparse st idStr hp]
    exact ⟨rfl, id⟩
  rcases hf : findItem st i with _ | removed
  · rw [deleteItem_eq_nofind st idStr i hp hf]
    exact ⟨rfl, id⟩
  · rw [deleteItem_eq_found st idStr i removed hp hf]
    exact ⟨rfl, fun h y hy => h y (mem_removeFirst hy)⟩

theorem applyReq_nextId_le (st : ServerState) (req : Request) :
    st.nextId ≤ (applyReq st req).nextId := by
  unfold applyReq handle
  cases req.path <;> dsimp only
  case register =>
    split
    · exact postRegister_nextId_le st _ _ _ _
    · exact le_refl _
  case inventoryId s =>
    split
    · exact le_refl _
    split
    · exact le_of_eq (putItem_state st _ s _ _).1.symm
    split
    · exact le_of_eq (deleteItem_state st s).1.symm
    · exact le_refl _
  case inventoryIdPhoto s =>
    split
    · exact le_refl _
    split
    · exact le_of_eq (putPhoto_state st _ s _).1.symm
    · exact le_refl _
  all_goals first
  | (split <;> exact le_refl _)
  | exact le_refl _

theorem applyReq_idBound (st : ServerState) (req : Request) (h : idBound st) :
    idBound (applyReq st req) := by
  unfold applyReq handle
  cases req.path <;> dsimp only
  case register =>
    split
    · exact postRegister_idBound st _ _ _ _ h
    · exact h
  case inventoryId s =>
    split
    · exact h
    split
    · exact (putItem_state st _ s _ _).2.2 h
    split
    · exact (deleteItem_state st s).2 h
    · exact h
  case inventoryIdPhoto s =>
    split
    · exact h
    split
    · exact (putPhoto_state st _ s _).2 h
    · exact h
  all_goals first
  | (split <;> exact h)
  | exact h

theorem runReqs_nextId_le (st : ServerState) (reqs : List Request) :
    st.nextId ≤ (runReqs st reqs).nextId := by
  induction reqs generalizing st with
  | nil => exact le_refl _
  | cons r rs ih =>
    exact le_trans (applyReq_nextId_le st r) (ih (applyReq st r))

theorem runReqs_idBound (st : ServerState) (reqs : List Request) (h : idBound st) :
    idBound (runReqs st reqs) := by
  induction reqs generalizing st with
  | nil => exact h
  | cons r rs ih =>
    exact ih (applyReq st r) (applyReq_idBound st r h)

theorem idBound_reachable (f : DiskFile) (photos : List String) (reqs : List Request) :
    idBound (runReqs (initState f photos) reqs) :=
  runReqs_idBound _ _ (idBound_initState f photos)

/-! ### Claim C3: invalid register input -/

/-- C3: a register request whose `inventory_name` is missing, empty, or
whitespace-only yields status 400 and leaves the item store (same list and
hence same length), the id counter and the persisted file unchanged. -/
theorem register_invalid_name_rejected (st : ServerState) (b : String)
    (name desc file : Option String)
    (h : name = none ∨ ∃ s, name = some s ∧ trimJS s = "") :
    ((postRegister st b name desc file).1).status = 400 ∧
    ((postRegister st b name desc file).2).inventory = st.inventory ∧
    ((postRegister st b name desc file).2).inventory.length = st.inventory.length ∧
    ((postRegister st b name desc file).2).nextId = st.nextId ∧
    ((postRegister st b name desc file).2).invFile = st.invFile := by
  rcases h with rfl | ⟨s, rfl, hs⟩
  · rw [postRegister_eq_missing]
    exact ⟨rfl, rfl, rfl, rfl, rfl⟩
  · rw [postRegister_eq_blank st b s desc file hs]
    exact ⟨rfl, rfl, rfl, rfl, rfl⟩

theorem register_invalid_name_rejected_witness :
    (some "  " = none ∨ ∃ s, some "  " = some s ∧ trimJS s = "") ∧
    ((postRegister (initState .absent []) "http://h" (some "  ") none none).1).status = 400 ∧
    ((postRegister (initState .absent []) "http://h" (some "  ") none none).2).inventory
      = (initState .absent []).inventory :=
  ⟨Or.inr ⟨"  ", rfl, by decide⟩,
   (register_invalid_name_rejected _ _ _ _ _ (Or.inr ⟨"  ", rfl, by decide⟩)).1,
   (register_invalid_name_rejected _ _ _ _ _ (Or.inr ⟨"  ", rfl, by decide⟩)).2.1⟩

/-! ### Claim C10: startup recovery -/

/-- C10: when the persisted inventory file is absent or unparseable the
service starts with an empty inventory and id counter 1; the corrupt
content is discarded and the next successful mutation overwrites the file
with the new store. -/
theorem startup_recovery (f : DiskFile) (photos : List String) (b s : String)
    (desc file : Option String)
    (hf : f = .absent ∨ f = .invalid) (hs : trimJS s ≠ "") :
    (initState f photos).inventory = [] ∧
    (initState f photos).nextId = 1 ∧
    ((postRegister (initState f photos) b (some s) desc file).2).inventory
      = [⟨1, trimJS s, desc.getD "", file⟩] ∧
    ((postRegister (initState f photos) b (some s) desc file).2).invFile
      = .parsed [⟨1, trimJS s, desc.getD "", file⟩] := by
  have hinv : loadInventory f = [] := by rcases hf with rfl | rfl <;> rfl
  have h1 : (initState f photos).inventory = [] := hinv
  have h2 : (initState f photos).nextId = 1 := by
    show computeNextId (loadInventory f) = 1
    rw [hinv]
    rfl
  rw [postRegister_eq_ok (initState f photos) b s desc file hs]
  refine ⟨h1, h2, ?_, ?_⟩
  · show (initState f photos).inventory
        ++ [⟨(initState f photos).nextId, trimJS s, desc.getD "", file⟩] = _
    rw [h1, h2]
    rfl
  · show DiskFile.parsed ((initState f photos).inventory
        ++ [⟨(initState f photos).nextId, trimJS s, desc.getD "", file⟩]) = _
    rw [h1, h2]
    rfl

theorem startup_recovery_witness :
    (DiskFile.invalid = DiskFile.absent ∨ DiskFile.invalid = DiskFile.invalid) ∧
    trimJS "Drill" ≠ "" ∧
    (initState .invalid []).inventory = [] ∧
    (initState .invalid []).nextId = 1 ∧
    ((postRegister (initState .invalid []) "http://h" (some "Drill") none none).2).invFile
      = .parsed [⟨1, trimJS "Drill", Option.getD none "", none⟩] :=
  ⟨Or.inr rfl, by decide,
   (startup_recovery .invalid [] "http://h" "Drill" none none (Or.inr rfl) (by decide)).1,
   (startup_recovery .invalid [] "http://h" "Drill" none none (Or.inr rfl) (by decide)).2.1,
   (startup_recovery .invalid [] "http://h" "Drill" none none (Or.inr rfl) (by decide)).2.2.2⟩

/-! ### Claim C9: routing -/

/-- The five JSON API paths of the route table. -/
def recognizedApiPath : ReqPath → Bool
  | .register => true
  | .inventory => true
  | .inventoryId _ => true
  | .inventoryIdPhoto _ => true
  | .search => true
  | .registerForm => false
  | .searchForm => false
  | .unknown _ => false

/-- The methods each path dispatches to a handler (the `app.all` catchers
return 405 for every other method). -/
def allowedMethods : ReqPath → List String
  | .register => ["POST"]
  | .inventory => ["GET"]
  | .inventoryId _ => ["GET", "PUT", "DELETE"]
  | .inventoryIdPhoto _ => ["GET", "PUT"]
  | .search => ["POST"]
  | .registerForm => ["GET"]
  | .searchForm => ["GET"]
  | .unknown _ => []

/-- C9 fails as stated: Express dispatches HEAD requests to `app.get`
handlers, so `HEAD /inventory` — a method not listed for that recognized
path — answers 200, not 405; and `GET /RegisterForm.html`, whose path is
outside the claim's recognized list, is served with 200, not the generic
404. -/
theorem router_head_and_forms_escape :
    "HEAD" ∉ allowedMethods .inventory ∧
    ((handle (initState .absent [])
        ⟨"HEAD", .inventory, "http://h", none, none, none, none, none⟩).1).status = 200 ∧
    ((handle (initState .absent [])
        ⟨"HEAD", .inventory, "http://h", none, none, none, none, none⟩).1).status ≠ 405 ∧
    recognizedApiPath .registerForm = false ∧
    ((handle (initState .absent [])
        ⟨"GET", .registerForm, "http://h", none, none, none, none, none⟩).1).status = 200 ∧
    ((handle (initState .absent [])
        ⟨"GET", .registerForm, "http://h", none, none, none, none, none⟩).1).status ≠ 404 := by
  decide

/-- C9 (amended): on the five recognized API paths, a method that is
neither listed for the path nor a HEAD request on a path whose listed
methods include GET (Express serves HEAD through the GET handler) yields
405 and leaves the state unchanged; a request to a path outside both the
API paths and the two static form pages yields the generic 404 JSON body,
and so does a request to a form page with a method other than GET or
HEAD. -/
theorem router_405_404_amended (st : ServerState) (req : Request) :
    (recognizedApiPath req.path = true →
      req.method ∉ allowedMethods req.path →
      ¬ (req.method = "HEAD" ∧ "GET" ∈ allowedMethods req.path) →
      (handle st req).1 = ⟨405, .jsonError "Method Not Allowed"⟩ ∧
      (handle st req).2 = st) ∧
    (∀ raw, req.path = .unknown raw →
      (handle st req).1 = ⟨404, .jsonError "Not Found"⟩) ∧
    ((req.path = .registerForm ∨ req.path = .searchForm) →
      req.method ≠ "GET" → req.method ≠ "HEAD" →
      (handle st req).1 = ⟨404, .jsonError "Not Found"⟩) := by
  rcases req with ⟨m, p, b, n, d, idf, hph, f⟩
  refine ⟨?_, ?_, ?_⟩
  · intro hrec hmem hhead
    cases p with
    | register =>
      have h1 : ¬ m = "POST" := fun h => hmem (by simp [allowedMethods, h])
      simp [handle, if_neg h1]
    | inventory =>
      have h1 : ¬ m = "GET" := fun h => hmem (by simp [allowedMethods, h])
      have h2 : ¬ m = "HEAD" := fun h => hhead ⟨h, by simp [allowedMethods]⟩
      simp [handle, if_neg (not_or.mpr ⟨h1, h2⟩)]
    | search =>
      have h1 : ¬ m = "POST" := fun h => hmem (by simp [allowedMethods, h])
      simp [handle, if_neg h1]
    | inventoryId s =>
      have h1 : ¬ m = "GET" := fun h => hmem (by simp [allowedMethods, h])
      have h2 : ¬ m = "HEAD" := fun h => hhead ⟨h, by simp [allowedMethods]⟩
      have h3 : ¬ m = "PUT" := fun h => hmem (by simp [allowedMethods, h])
      have h4 : ¬ m = "DELETE" := fun h => hmem (by simp [allowedMethods, h])
      simp [handle, if_neg (not_or.mpr ⟨h1, h2⟩), if_neg h3, if_neg h4]
    | inventoryIdPhoto s =>
      have h1 : ¬ m = "GET" := fun h => hmem (by simp [allowedMethods, h])
      have h2 : ¬ m = "HEAD" := fun h => hhead ⟨h, by simp [allowedMethods]⟩
      have h3 : ¬ m = "PUT" := fun h => hmem (by simp [allowedMethods, h])
      simp [handle, if_neg (not_or.mpr ⟨h1, h2⟩), if_neg h3]
    | registerForm => simp [recognizedApiPath] at hrec
    | searchForm => simp [recognizedApiPath] at hrec
    | unknown raw => simp [recognizedApiPath] at hrec
  · intro raw hr
    subst hr
    rfl
  · intro hform h1 h2
    rcases hform with hr | hr <;> subst hr <;>
      simp [handle, if_neg (not_or.mpr ⟨h1, h2⟩)]

theorem router_405_404_amended_witness :
    (handle (initState .absent [])
        ⟨"PATCH", .inventory, "http://h", none, none, none, none, none⟩).1
      = ⟨405, .jsonError "Method Not Allowed"⟩ ∧
    (handle (initState .absent [])
        ⟨"GET", .unknown "/nope", "http://h", none, none, none, none, none⟩).1
      = ⟨404, .jsonError "Not Found"⟩ ∧
    (handle (initState .absent [])
        ⟨"POST", .registerForm, "http://h", none, none, none, none, none⟩).1
      = ⟨404, .jsonError "Not Found"⟩ :=
  ⟨((router_405_404_amended (initState .absent [])
      ⟨"PATCH", .inventory, "http://h", none, none, none, none, none⟩).1
      (by decide) (by decide) (by decide)).1,
   (router_405_404_amended (initState .absent [])
      ⟨"GET", .unknown "/nope", "http://h", none, none, none, none, none⟩).2.1
      "/nope" rfl,
   (router_405_404_amended (initState .absent [])
      ⟨"POST", .registerForm, "http://h", none, none, none, none, none⟩).2.2
      (Or.inl rfl) (by decide) (by decide)⟩

/-! ### Claim C5: search -/

/-- C5 fails as stated: `parseInt` ignores trailing garbage, so the
non-numeric id field "1xyz" is parsed as 1 and, with item 1 present, the
search returns 200 instead of the 400 the claim requires for every
non-numeric id. -/
theorem search_nonnumeric_not_400 :
    (postSearch (initState (.parsed [⟨1, "A", "", none⟩]) []) "http://h"
        (some "1xyz") none).status = 200 ∧
    (postSearch (initState (.parsed [⟨1, "A", "", none⟩]) []) "http://h"
        (some "1xyz") none).status ≠ 400 := by
  decide

/-- C5 (amended): the search returns 400 exactly when the id field fails
JavaScript integer parsing (a field with trailing garbage after a leading
integer parses); a parsed id with no matching item yields 404; a matching
item yields 200 with `has_photo` true iff the item has a truthy photo
reference and `photo_url` non-null iff `has_photo=on` was sent and the item
has a photo reference. -/
theorem search_response (st : ServerState) (b : String) (idf hph : Option String) :
    (searchId idf = none →
      postSearch st b idf hph = ⟨400, .jsonError "Invalid id"⟩) ∧
    (∀ i, searchId idf = some i → findItem st i = none →
      postSearch st b idf hph = ⟨404, .jsonError "Item not found"⟩) ∧
    (∀ i it, searchId idf = some i → findItem st i = some it →
      postSearch st b idf hph
        = ⟨200, .jsonSearch
            ⟨it.id, it.inventory_name, it.description, strTruthy it.photoFilename,
             if (hph == some "on") && strTruthy it.photoFilename
             then some (photoUrl b it.id) else none⟩⟩ ∧
      ((if (hph == some "on") && strTruthy it.photoFilename
        then some (photoUrl b it.id) else none) ≠ none ↔
        hph = some "on" ∧ strTruthy it.photoFilename = true)) := by
  refine ⟨?_, ?_, ?_⟩
  · intro h
    simp only [postSearch, h]
  · intro i h hf
    simp only [postSearch, h, hf]
  · intro i it h hf
    constructor
    · simp only [postSearch, h, hf]
    · by_cases hcase : ((hph == some "on") && strTruthy it.photoFilename) = true
      · rw [if_pos hcase]
        simp only [ne_eq, reduceCtorEq, not_false_eq_true, true_iff]
        simp only [Bool.and_eq_true, beq_iff_eq] at hcase
        exact hcase
      · rw [if_neg hcase]
        simp only [ne_eq, not_true_eq_false, false_iff]
        intro ⟨ha, hb⟩
        exact hcase (by simp [ha, hb])

theorem search_response_witness :
    postSearch (initState (.parsed [⟨1, "A", "d", some "p.jpg"⟩]) []) "http://h"
        (some "1") (some "on")
      = ⟨200, .jsonSearch ⟨1, "A", "d", true, some (photoUrl "http://h" 1)⟩⟩ :=
  ((search_response (initState (.parsed [⟨1, "A", "d", some "p.jpg"⟩]) [])
      "http://h" (some "1") (some "on")).2.2 1 ⟨1, "A", "d", some "p.jpg"⟩
      (by decide) (by decide)).1

/-! ### Claim C8: the photo route -/

theorem getPhoto_eq_nofind (st : ServerState) (idStr : String)
    (h : findItemByStr st idStr = none) :
    getPhoto st idStr = ⟨404, .jsonError "Photo not found"⟩ := by
  simp only [getPhoto, h]

theorem getPhoto_eq_noref (st : ServerState) (idStr : String) (it : Item)
    (h : findItemByStr st idStr = some it) (hpf : it.photoFilename = none) :
    getPhoto st idStr = ⟨404, .jsonError "Photo not found"⟩ := by
  simp only [getPhoto, h, hpf]

theorem getPhoto_eq_emptyref (st : ServerState) (idStr : String) (it : Item)
    (h : findItemByStr st idStr = some it) (hpf : it.photoFilename = some "") :
    getPhoto st idStr = ⟨404, .jsonError "Photo not found"⟩ := by
  simp [getPhoto, h, hpf]

theorem getPhoto_eq_missingfile (st : ServerState) (idStr : String) (it : Item)
    (fn : String) (h : findItemByStr st idStr = some it)
    (hpf : it.photoFilename = some fn) (hemp : fn ≠ "") (hmem : fn ∉ st.photoFiles) :
    getPhoto st idStr = ⟨404, .jsonError "Photo file not found"⟩ := by
  simp only [getPhoto, h, hpf]
  rw [if_neg hemp, if_neg hmem]

theorem getPhoto_eq_found (st : ServerState) (idStr : String) (it : Item)
    (fn : String) (h : findItemByStr st idStr = some it)
    (hpf : it.photoFilename = some fn) (hemp : fn ≠ "") (hmem : fn ∈ st.photoFiles) :
    getPhoto st idStr = ⟨200, .fileContent "image/jpeg" fn⟩ := by
  simp only [getPhoto, h, hpf]
  rw [if_neg hemp, if_pos hmem]

/-- C8: the photo route answers 404 exactly when the item is absent, its
photo reference is falsy, or the referenced file is not on disk; otherwise
it serves the referenced file with an image content type. -/
theorem photo_route_404_iff (st : ServerState) (idStr : String) :
    ((getPhoto st idStr).status = 404 ↔
      findItemByStr st idStr = none ∨
      (∃ it, findItemByStr st idStr = some it ∧ strTruthy it.photoFilename = false) ∨
      (∃ it fn, findItemByStr st idStr = some it ∧ it.photoFilename = some fn ∧
        fn ∉ st.photoFiles)) ∧
    (∀ it fn, findItemByStr st idStr = some it → it.photoFilename = some fn →
      strTruthy it.photoFilename = true → fn ∈ st.photoFiles →
      getPhoto st idStr = ⟨200, .fileContent "image/jpeg" fn⟩) := by
  rcases hfind : findItemByStr st idStr with _ | it
  · rw [getPhoto_eq_nofind st idStr hfind]
    refine ⟨⟨fun _ => Or.inl rfl, fun _ => rfl⟩, ?_⟩
    intro it2 fn h2 _ _ _
    simp at h2
  rcases hpf : it.photoFilename with _ | fn
  · rw [getPhoto_eq_noref st idStr it hfind hpf]
    refine ⟨⟨fun _ => Or.inr (Or.inl ⟨it, rfl, by rw [hpf]; rfl⟩), fun _ => rfl⟩, ?_⟩
    intro it2 fn h2 h3 _ _
    obtain rfl : it = it2 := by injection h2
    rw [hpf] at h3
    simp at h3
  by_cases hemp : fn = ""
  · subst hemp
    rw [getPhoto_eq_emptyref st idStr it hfind hpf]
    refine ⟨⟨fun _ => Or.inr (Or.inl ⟨it, rfl, by rw [hpf]; decide⟩),
        fun _ => rfl⟩, ?_⟩
    intro it2 fn2 h2 _ h4 _
    obtain rfl : it = it2 := by injection h2
    rw [hpf] at h4
    exact absurd h4 (by decide)
  by_cases hmem : fn ∈ st.photoFiles
  · rw [getPhoto_eq_found st idStr it fn hfind hpf hemp hmem]
    constructor
    · constructor
      · intro h
        simp at h
      · rintro (h | ⟨it2, h2, h3⟩ | ⟨it2, fn2, h2, h3, h4⟩)
        · simp at h
        · obtain rfl : it = it2 := by injection h2
          rw [hpf] at h3
          simp only [strTruthy, Bool.not_eq_false', beq_iff_eq] at h3
          exact absurd h3 hemp
        · obtain rfl : it = it2 := by injection h2
          rw [hpf] at h3
          obtain rfl : fn = fn2 := by injection h3
          exact absurd hmem h4
    · intro it2 fn2 h2 h3 _ _
      obtain rfl : it = it2 := by injection h2
      rw [hpf] at h3
      obtain rfl : fn = fn2 := by injection h3
      rfl
  · rw [getPhoto_eq_missingfile st idStr it fn hfind hpf hemp hmem]
    constructor
    · exact ⟨fun _ => Or.inr (Or.inr ⟨it, fn, rfl, hpf, hmem⟩), fun _ => rfl⟩
    · intro it2 fn2 h2 h3 _ hmem2
      obtain rfl : it = it2 := by injection h2
      rw [hpf] at h3
      obtain rfl : fn = fn2 := by injection h3
      exact absurd hmem2 hmem

theorem photo_route_404_iff_witness :
    getPhoto (initState (.parsed [⟨1, "A", "", some "p.jpg"⟩]) ["p.jpg"]) "1"
      = ⟨200, .fileContent "image/jpeg" "p.jpg"⟩ :=
  (photo_route_404_iff (initState (.parsed [⟨1, "A", "", some "p.jpg"⟩]) ["p.jpg"]) "1").2
    ⟨1, "A", "", some "p.jpg"⟩ "p.jpg" (by decide) rfl (by decide) (by decide)

/-! ### Claim C1: the id assigned by register -/

/-- The state after registering item "A" into an initially empty store. -/
def afterFirstRegister : ServerState :=
  (postRegister (initState .absent []) "http://h" (some "A") none none).2

/-- The state after then deleting item 1 again. -/
def afterDelete : ServerState :=
  (deleteItem afterFirstRegister "1").2

/-- C1 fails as stated: after registering item 1 and deleting it the store
is empty again, yet the next successful register is assigned id 2 —
not the id 1 the claim requires for an empty store (the counter is never
recomputed from the surviving items). -/
theorem register_after_delete_skips_ids :
    afterDelete.inventory = [] ∧
    (postRegister afterDelete "http://h" (some "B") none none).1
      = ⟨201, .jsonItem ⟨2, "B", "", none⟩⟩ ∧
    (2 : Int) ≠ 1 := by
  decide

/-- C1 (amended): a successful register (non-empty trimmed name) assigns
the current value of the id counter — which is initialized at startup to
max(existing ids)+1 (1 when the store is empty) and incremented once per
creation, but never recomputed after deletions — and this id is strictly
greater than every id currently in the store; the new item is appended, so
it appears in list(), and it is immediately retrievable by get-by-id. -/
theorem register_assigns_counter_id (f : DiskFile) (photos : List String)
    (reqs : List Request) (b s : String) (desc file : Option String)
    (hs : trimJS s ≠ "") :
    ∃ newIt : Item,
      newIt = ⟨(runReqs (initState f photos) reqs).nextId, trimJS s, desc.getD "", file⟩ ∧
      (postRegister (runReqs (initState f photos) reqs) b (some s) desc file).1
        = ⟨201, .jsonItem (itemToDTO b newIt)⟩ ∧
      (∀ it ∈ (runReqs (initState f photos) reqs).inventory, it.id < newIt.id) ∧
      ((postRegister (runReqs (initState f photos) reqs) b (some s) desc file).2).inventory
        = (runReqs (initState f photos) reqs).inventory ++ [newIt] ∧
      newIt ∈ ((postRegister (runReqs (initState f photos) reqs) b (some s) desc file).2).inventory ∧
      (∀ sId, parseIntJS sId = some newIt.id →
        getItem ((postRegister (runReqs (initState f photos) reqs) b (some s) desc file).2) b sId
          = ⟨200, .jsonItem (itemToDTO b newIt)⟩) := by
  have hb : idBound (runReqs (initState f photos) reqs) := idBound_reachable f photos reqs
  refine ⟨⟨(runReqs (initState f photos) reqs).nextId, trimJS s, desc.getD "", file⟩,
    rfl, ?_, ?_, ?_, ?_, ?_⟩
  · rw [postRegister_eq_ok _ b s desc file hs]
  · exact fun it hit => hb it hit
  · rw [postRegister_eq_ok _ b s desc file hs]
  · rw [postRegister_eq_ok _ b s desc file hs]
    exact List.mem_append_right _ (List.mem_singleton_self _)
  · intro sId hsId
    rw [postRegister_eq_ok _ b s desc file hs]
    unfold getItem findItemByStr findItem
    rw [hsId]
    dsimp only
    rw [find_first_split (runReqs (initState f photos) reqs).inventory []
      ⟨(runReqs (initState f photos) reqs).nextId, trimJS s, desc.getD "", file⟩
      (runReqs (initState f photos) reqs).nextId
      (fun x hx => ne_of_lt (hb x hx)) rfl]

theorem register_assigns_counter_id_witness :
    trimJS "Drill" ≠ "" ∧
    ∃ newIt : Item,
      newIt = ⟨(runReqs (initState .absent []) []).nextId, trimJS "Drill",
        Option.getD none "", none⟩ ∧
      (postRegister (runReqs (initState .absent []) []) "http://h" (some "Drill") none none).1
        = ⟨201, .jsonItem (itemToDTO "http://h" newIt)⟩ ∧
      (∀ it ∈ (runReqs (initState .absent []) []).inventory, it.id < newIt.id) ∧
      ((postRegister (runReqs (initState .absent []) []) "http://h" (some "Drill") none none).2).inventory
        = (runReqs (initState .absent []) []).inventory ++ [newIt] ∧
      newIt ∈ ((postRegister (runReqs (initState .absent []) []) "http://h" (some "Drill") none none).2).inventory ∧
      (∀ sId, parseIntJS sId = some newIt.id →
        getItem ((postRegister (runReqs (initState .absent []) []) "http://h" (some "Drill") none none).2)
            "http://h" sId
          = ⟨200, .jsonItem (itemToDTO "http://h" newIt)⟩) :=
  ⟨by decide,
   register_assigns_counter_id .absent [] [] "http://h" "Drill" none none (by decide)⟩

/-! ### Claim C2: ids are never reused -/

/-- C2: once an id has appeared in the store at any point of a run (whether
loaded at startup or assigned by a register), no later successful register
assigns that id; in particular the id of a deleted item is never reused
within the same process run. -/
theorem ids_never_reused (f : DiskFile) (photos : List String)
    (pre post : List Request) (x : Int) (b : String)
    (name desc file : Option String) (dto : ItemDTO)
    (hx : x ∈ itemIds (runReqs (initState f photos) pre))
    (hreg : (postRegister (runReqs (initState f photos) (pre ++ post)) b name desc file).1
        = ⟨201, .jsonItem dto⟩) :
    dto.id ≠ x := by
  have hlt : x < (runReqs (initState f photos) pre).nextId := by
    obtain ⟨it, hit, hid⟩ := List.mem_map.mp hx
    rw [← hid]
    exact idBound_reachable f photos pre it hit
  have hle : (runReqs (initState f photos) pre).nextId
      ≤ (runReqs (initState f photos) (pre ++ post)).nextId := by
    rw [show runReqs (initState f photos) (pre ++ post)
        = runReqs (runReqs (initState f photos) pre) post from List.foldl_append _ _ _ _]
    exact runReqs_nextId_le _ post
  rcases name with _ | s
  · rw [postRegister_eq_missing] at hreg
    simp at hreg
  by_cases hsb : trimJS s = ""
  · rw [postRegister_eq_blank _ _ _ _ _ hsb] at hreg
    simp at hreg
  · rw [postRegister_eq_ok _ _ _ _ _ hsb] at hreg
    injection hreg with h1 h2
    injection h2 with h3
    have hid : dto.id = (runReqs (initState f photos) (pre ++ post)).nextId := by
      rw [← h3]
      rfl
    omega

theorem ids_never_reused_witness :
    (1 : Int) ∈ itemIds (runReqs (initState (.parsed [⟨1, "A", "", none⟩]) []) []) ∧
    (postRegister (runReqs (initState (.parsed [⟨1, "A", "", none⟩]) []) ([] ++ []))
        "http://h" (some "B") none none).1
      = ⟨201, .jsonItem ⟨2, "B", "", none⟩⟩ ∧
    (⟨2, "B", "", none⟩ : ItemDTO).id ≠ 1 :=
  ⟨by decide, by decide,
   ids_never_reused (.parsed [⟨1, "A", "", none⟩]) [] [] [] 1 "http://h"
     (some "B") none none ⟨2, "B", "", none⟩ (by decide) (by decide)⟩

/-! ### Claim C4: partial update -/

/-- C4: updating an existing item replaces exactly the supplied fields
(an explicitly supplied empty string included), keeps omitted fields, keeps
the id and the photo reference, and leaves every other item untouched. -/
theorem update_partial_semantics (st : ServerState) (b idStr : String) (i : Int)
    (name desc : Option String) (pre post : List Item) (it : Item)
    (hp : parseIntJS idStr = some i)
    (hsplit : st.inventory = pre ++ it :: post)
    (hpre : ∀ x ∈ pre, x.id ≠ i)
    (hit : it.id = i) :
    (putItem st b idStr name desc).1
      = ⟨200, .jsonItem (itemToDTO b (applyUpdate name desc it))⟩ ∧
    ((putItem st b idStr name desc).2).inventory
      = pre ++ applyUpdate name desc it :: post ∧
    (applyUpdate name desc it).id = it.id ∧
    (applyUpdate name desc it).photoFilename = it.photoFilename ∧
    (applyUpdate name desc it).inventory_name = name.getD it.inventory_name ∧
    (applyUpdate name desc it).description = desc.getD it.description := by
  have hfind : findItem st i = some it := by
    unfold findItem
    rw [hsplit]
    exact find_first_split pre post it i hpre hit
  rw [putItem_eq_found st b idStr name desc i it hp hfind]
  refine ⟨rfl, ?_, applyUpdate_id name desc it, ?_, ?_, ?_⟩
  · show updateFirst st.inventory i (applyUpdate name desc) = _
    rw [hsplit]
    exact updateFirst_split pre post it i _ hpre hit
  · unfold applyUpdate
    cases name <;> cases desc <;> rfl
  · unfold applyUpdate
    cases name <;> cases desc <;> rfl
  · unfold applyUpdate
    cases name <;> cases desc <;> rfl

theorem update_partial_semantics_witness :
    (putItem (initState (.parsed [⟨1, "A", "d", some "p.jpg"⟩]) []) "http://h" "1"
        (some "B") none).1
      = ⟨200, .jsonItem (itemToDTO "http://h"
          (applyUpdate (some "B") none ⟨1, "A", "d", some "p.jpg"⟩))⟩ ∧
    (applyUpdate (some "B") none ⟨1, "A", "d", some "p.jpg"⟩).inventory_name = "B" ∧
    (applyUpdate (some "B") none ⟨1, "A", "d", some "p.jpg"⟩).description = "d" ∧
    (applyUpdate (some "B") none ⟨1, "A", "d", some "p.jpg"⟩).photoFilename = some "p.jpg" :=
  ⟨(update_partial_semantics (initState (.parsed [⟨1, "A", "d", some "p.jpg"⟩]) [])
      "http://h" "1" 1 (some "B") none [] [] ⟨1, "A", "d", some "p.jpg"⟩
      (by decide) rfl (by simp) rfl).1,
   (update_partial_semantics (initState (.parsed [⟨1, "A", "d", some "p.jpg"⟩]) [])
      "http://h" "1" 1 (some "B") none [] [] ⟨1, "A", "d", some "p.jpg"⟩
      (by decide) rfl (by simp) rfl).2.2.2.2.1,
   (update_partial_semantics (initState (.parsed [⟨1, "A", "d", some "p.jpg"⟩]) [])
      "http://h" "1" 1 (some "B") none [] [] ⟨1, "A", "d", some "p.jpg"⟩
      (by decide) rfl (by simp) rfl).2.2.2.2.2,
   (update_partial_semantics (initState (.parsed [⟨1, "A", "d", some "p.jpg"⟩]) [])
      "http://h" "1" 1 (some "B") none [] [] ⟨1, "A", "d", some "p.jpg"⟩
      (by decide) rfl (by simp) rfl).2.2.2.1⟩

/-! ### Claim C6: delete -/

/-- C6: deleting an id that matches no item answers 404 and changes
nothing; deleting an existing item answers 200 with "Item deleted", removes
exactly that item (get-by-id, the photo route and list() no longer show
it), removes its photo file (when truthy) from the cache directory, and
keeps every other item. Stated for stores with distinct ids and a
duplicate-free cache directory, the situation every real run is in. -/
theorem delete_semantics (st : ServerState) (b idStr : String)
    (hids : (itemIds st).Nodup) (hfiles : st.photoFiles.Nodup) :
    (findItemByStr st idStr = none →
      deleteItem st idStr = (⟨404, .jsonError "Item not found"⟩, st)) ∧
    (∀ i removed, parseIntJS idStr = some i → findItem st i = some removed →
      (deleteItem st idStr).1 = ⟨200, .jsonMessage "Item deleted"⟩ ∧
      removed ∉ ((deleteItem st idStr).2).inventory ∧
      findItem ((deleteItem st idStr).2) i = none ∧
      getItem ((deleteItem st idStr).2) b idStr = ⟨404, .jsonError "Item not found"⟩ ∧
      getPhoto ((deleteItem st idStr).2) idStr = ⟨404, .jsonError "Photo not found"⟩ ∧
      (∀ fn, removed.photoFilename = some fn → fn ≠ "" →
        fn ∉ ((deleteItem st idStr).2).photoFiles) ∧
      (∀ x ∈ st.inventory, x ≠ removed → x ∈ ((deleteItem st idStr).2).inventory)) := by
  constructor
  · intro hnone
    unfold findItemByStr at hnone
    rcases hp : parseIntJS idStr with _ | i
    · exact deleteItem_eq_noparse st idStr hp
    · rw [hp] at hnone
      exact deleteItem_eq_nofind st idStr i hp hnone
  · intro i removed hp hfind
    obtain ⟨hid, pre, post, hinv, hpre⟩ := find?_eq_some_split st.inventory i removed hfind
    have hrm : removeFirst st.inventory i = pre ++ post := by
      rw [hinv]
      exact removeFirst_split pre post removed i hpre hid
    have hidsnot : removed.id ∉ pre.map Item.id ∧ removed.id ∉ post.map Item.id := by
      rw [itemIds, hinv] at hids
      simp only [List.map_append, List.map_cons] at hids
      rw [List.nodup_append] at hids
      obtain ⟨h1, h2, h3⟩ := hids
      exact ⟨fun hm => h3 hm (List.mem_cons_self _ _), (List.nodup_cons.mp h2).1⟩
    have hfnone : (pre ++ post).find? (fun x => x.id == i) = none := by
      rw [List.find?_eq_none]
      intro x hx
      simp only [beq_iff_eq]
      rcases List.mem_append.mp hx with hx | hx
      · exact hpre x hx
      · intro hxi
        exact hidsnot.2 (List.mem_map.mpr ⟨x, hx, by rw [hxi, hid]⟩)
    rw [deleteItem_eq_found st idStr i removed hp hfind, hrm]
    refine ⟨rfl, ?_, ?_, ?_, ?_, ?_, ?_⟩
    · intro hmem
      rcases List.mem_append.mp hmem with hm | hm
      · exact hidsnot.1 (List.mem_map.mpr ⟨removed, hm, rfl⟩)
      · exact hidsnot.2 (List.mem_map.mpr ⟨removed, hm, rfl⟩)
    · exact hfnone
    · unfold getItem findItemByStr
      rw [hp]
      show (match (pre ++ post).find? (fun x => x.id == i) with
        | none => (⟨404, .jsonError "Item not found"⟩ : Response)
        | some it => ⟨200, .jsonItem (itemToDTO b it)⟩) = _
      rw [hfnone]
    · unfold getPhoto findItemByStr
      rw [hp]
      show (match (pre ++ post).find? (fun x => x.id == i) with
        | none => (⟨404, .jsonError "Photo not found"⟩ : Response)
        | some it =>
          match it.photoFilename with
          | none => ⟨404, .jsonError "Photo not found"⟩
          | some f =>
            if f = "" then ⟨404, .jsonError "Photo not found"⟩
            else if f ∈ (unlinkPhoto removed.photoFilename st.photoFiles)
            then ⟨200, .fileContent "image/jpeg" f⟩
            else ⟨404, .jsonError "Photo file not found"⟩) = _
      rw [hfnone]
    · intro fn hfn hne
      rw [hfn]
      show fn ∉ (if fn = "" then st.photoFiles else st.photoFiles.erase fn)
      rw [if_neg hne]
      intro hmem
      exact hne ((hfiles.mem_erase_iff.mp hmem).1 rfl).elim
    · intro x hx hne
      rw [hinv] at hx
      rcases List.mem_append.mp hx with hm | hm
      · exact List.mem_append_left _ hm
      · rcases List.mem_cons.mp hm with rfl | hm
        · exact absurd rfl hne
        · exact List.mem_append_right _ hm

theorem delete_semantics_witness :
    ((deleteItem (initState (.parsed [⟨1, "A", "", some "p.jpg"⟩]) ["p.jpg"]) "1").1
      = ⟨200, .jsonMessage "Item deleted"⟩) ∧
    "p.jpg" ∉ ((deleteItem (initState (.parsed [⟨1, "A", "", some "p.jpg"⟩]) ["p.jpg"])
        "1").2).photoFiles :=
  ⟨((delete_semantics (initState (.parsed [⟨1, "A", "", some "p.jpg"⟩]) ["p.jpg"])
      "http://h" "1" (by decide) (by decide)).2 1
      ⟨1, "A", "", some "p.jpg"⟩ (by decide) (by decide)).1,
   ((delete_semantics (initState (.parsed [⟨1, "A", "", some "p.jpg"⟩]) ["p.jpg"])
      "http://h" "1" (by decide) (by decide)).2 1
      ⟨1, "A", "", some "p.jpg"⟩ (by decide) (by decide)).2.2.2.2.2.1 "p.jpg" rfl (by decide)⟩

/-! ### Claim C7: photo update never unlinks -/

/-- A request that hits the DELETE branch of the `/inventory/:id` route. -/
def isItemDelete (req : Request) : Bool :=
  req.method == "DELETE" &&
    (match req.path with
     | .inventoryId _ => true
     | _ => false)

theorem mem_addUpload (f : Option String) (fs : List String) (g : String)
    (hg : g ∈ fs) : g ∈ addUpload f fs := by
  cases f
  · exact hg
  · exact List.mem_cons_of_mem _ hg

theorem postRegister_files_mono (st : ServerState) (b : String) (n d f : Option String)
    (g : String) (hg : g ∈ st.photoFiles) :
    g ∈ ((postRegister st b n d f).2).photoFiles := by
  rcases n with _ | s
  · rw [postRegister_eq_missing]
    exact mem_addUpload f st.photoFiles g hg
  by_cases hs : trimJS s = ""
  · rw [postRegister_eq_blank st b s d f hs]
    exact mem_addUpload f st.photoFiles g hg
  · rw [postRegister_eq_ok st b s d f hs]
    exact mem_addUpload f st.photoFiles g hg

theorem putPhoto_files_mono (st : ServerState) (b idStr : String) (f : Option String)
    (g : String) (hg : g ∈ st.photoFiles) :
    g ∈ ((putPhoto st b idStr f).2).photoFiles := by
  rcases hp : parseIntJS idStr with _ | i
  · rw [putPhoto_eq_noparse st b idStr f hp]
    exact mem_addUpload f st.photoFiles g hg
  rcases hf : findItem st i with _ | it
  · rw [putPhoto_eq_nofind st b idStr f i hp hf]
    exact mem_addUpload f st.photoFiles g hg
  rcases f with _ | fn
  · rw [putPhoto_eq_nofile st b idStr i it hp hf]
    exact hg
  · rw [putPhoto_eq_found st b idStr fn i it hp hf]
    exact List.mem_cons_of_mem _ hg

theorem files_preserved_nondelete (st : ServerState) (req : Request)
    (hnd : isItemDelete req = false) (g : String) (hg : g ∈ st.photoFiles) :
    g ∈ (applyReq st req).photoFiles := by
  unfold applyReq handle
  rcases req with ⟨m, p, b, n, d, idf, hph, f⟩
  cases p <;> dsimp only
  case register =>
    by_cases h1 : m = "POST"
    · rw [if_pos h1]
      exact postRegister_files_mono st b n d f g hg
    · rw [if_neg h1]
      exact hg
  case inventory =>
    by_cases h1 : m = "GET" ∨ m = "HEAD"
    · rw [if_pos h1]
      exact hg
    · rw [if_neg h1]
      exact hg
  case inventoryId s =>
    have hm : ¬ m = "DELETE" := by
      intro hme
      rw [isItemDelete, hme] at hnd
      simp at hnd
    by_cases h1 : m = "GET" ∨ m = "HEAD"
    · rw [if_pos h1]
      exact hg
    rw [if_neg h1]
    by_cases h2 : m = "PUT"
    · rw [if_pos h2, (putItem_state st b s n d).2.1]
      exact hg
    rw [if_neg h2, if_neg hm]
    exact hg
  case inventoryIdPhoto s =>
    by_cases h1 : m = "GET" ∨ m = "HEAD"
    · rw [if_pos h1]
      exact hg
    rw [if_neg h1]
    by_cases h2 : m = "PUT"
    · rw [if_pos h2]
      exact putPhoto_files_mono st b s f g hg
    · rw [if_neg h2]
      exact hg
  case search =>
    by_cases h1 : m = "POST"
    · rw [if_pos h1]
      exact hg
    · rw [if_neg h1]
      exact hg
  case registerForm =>
    by_cases h1 : m = "GET" ∨ m = "HEAD"
    · rw [if_pos h1]
      exact hg
    · rw [if_neg h1]
      exact hg
  case searchForm =>
    by_cases h1 : m = "GET" ∨ m = "HEAD"
    · rw [if_pos h1]
      exact hg
    · rw [if_neg h1]
      exact hg
  case unknown raw =>
    exact hg

/-- C7: a photo update on an existing item overwrites the photo reference
unconditionally (whatever it was before) and removes no file from the cache
directory; more generally, among all routes only the DELETE branch of
`/inventory/:id` ever removes a file. -/
theorem setPhoto_overwrite_no_unlink (st : ServerState)
    (b idStr fn : String) (i : Int) (pre post : List Item) (it : Item)
    (hp : parseIntJS idStr = some i)
    (hsplit : st.inventory = pre ++ it :: post)
    (hpre : ∀ x ∈ pre, x.id ≠ i)
    (hit : it.id = i) :
    (putPhoto st b idStr (some fn)).1
      = ⟨200, .jsonItem (itemToDTO b { it with photoFilename := some fn })⟩ ∧
    ((putPhoto st b idStr (some fn)).2).inventory
      = pre ++ { it with photoFilename := some fn } :: post ∧
    (∀ g ∈ st.photoFiles, g ∈ ((putPhoto st b idStr (some fn)).2).photoFiles) ∧
    (∀ req : Request, isItemDelete req = false →
      ∀ g ∈ st.photoFiles, g ∈ (applyReq st req).photoFiles) := by
  have hfind : findItem st i = some it := by
    unfold findItem
    rw [hsplit]
    exact find_first_split pre post it i hpre hit
  rw [putPhoto_eq_found st b idStr fn i it hp hfind]
  refine ⟨rfl, ?_, ?_, ?_⟩
  · show updateFirst st.inventory i (fun x => { x with photoFilename := some fn }) = _
    rw [hsplit]
    exact updateFirst_split pre post it i _ hpre hit
  · intro g hg
    exact List.mem_cons_of_mem _ hg
  · exact fun req hnd g hg => files_preserved_nondelete st req hnd g hg

theorem setPhoto_overwrite_no_unlink_witness :
    (putPhoto (initState (.parsed [⟨1, "A", "", some "old.jpg"⟩]) ["old.jpg"])
        "http://h" "1" (some "new.jpg")).1
      = ⟨200, .jsonItem (itemToDTO "http://h" ⟨1, "A", "", some "new.jpg"⟩)⟩ ∧
    "old.jpg" ∈ ((putPhoto (initState (.parsed [⟨1, "A", "", some "old.jpg"⟩]) ["old.jpg"])
        "http://h" "1" (some "new.jpg")).2).photoFiles :=
  ⟨(setPhoto_overwrite_no_unlink (initState (.parsed [⟨1, "A", "", some "old.jpg"⟩]) ["old.jpg"])
      "http://h" "1" "new.jpg" 1 [] [] ⟨1, "A", "", some "old.jpg"⟩
      (by decide) rfl (by simp) rfl).1,
   (setPhoto_overwrite_no_unlink (initState (.parsed [⟨1, "A", "", some "old.jpg"⟩]) ["old.jpg"])
      "http://h" "1" "new.jpg" 1 [] [] ⟨1, "A", "", some "old.jpg"⟩
      (by decide) rfl (by simp) rfl).2.2.1 "old.jpg" (by decide)⟩

end Inventory

